import Mathlib

/-!
Verification development for `rhcp-get-cases.py`, a terminal dashboard that
polls the Red Hat support-case API. The Python source is shallowly embedded:

* Python `str` values are modelled as `List Char` (a Python string is a
  sequence of code points), abbreviated `PyStr`.
* A Python value that may be `None` or a string (a JSON string field, or a
  dataclass field that can receive `None` at runtime) is modelled by `PyVal`.
* `dict.get(key, default)` on a JSON object is modelled by an `Option`-valued
  field (`none` = key absent) together with `pyGet`.
* `datetime.now()` readings are injected as `Nat` parameters; within one call
  to `get_access_token` the two readings are passed separately (`t1` for the
  cache check, `t2` for the expiry assignment).
* Exceptions are modelled with `Except` / `Option` return values; network
  responses are explicit inputs.
-/

/-- A Python string, as its sequence of characters. -/
abbrev PyStr := List Char

/-- A Python runtime value that is either `None` or a string.  JSON `null`
decodes to `None`, so a present-but-null JSON string field yields `.null`. -/
inductive PyVal where
  | null
  | str (s : PyStr)
deriving DecidableEq, Repr

namespace PyVal

/-- Python truthiness of a `None`-or-string value: `None` and `""` are falsy. -/
def truthy : PyVal → Bool
  | .null => false
  | .str s => !s.isEmpty

/-- Python `x or ""` applied to a `None`-or-string value. -/
def orEmpty : PyVal → PyStr
  | .null => []
  | .str s => if s.isEmpty then [] else s

/-- How a `None`-or-string value renders inside a Python f-string
(`str(None) = "None"`). -/
def fmt : PyVal → PyStr
  | .null => "None".data
  | .str s => s

end PyVal

/-- Python `dict.get(key, default)`: the stored value when the key is present
(possibly JSON null, i.e. `.null`), the default when absent. -/
def pyGet (field : Option PyVal) (d : PyVal) : PyVal :=
  field.getD d

/-- Python slicing `v[:n]` on a `None`-or-string value: defined (first `n`
characters) on a string, raises `TypeError` (modelled as `none`) on `None`. -/
def pySlice (v : PyVal) (n : Nat) : Option PyStr :=
  match v with
  | .str s => some (s.take n)
  | .null => none

/-- The `Case` dataclass (source lines 30-42).  Fields are declared `str` in
the source but can hold `None` at runtime, hence `PyVal`. -/
structure Case where
  case_number : PyVal
  summary : PyVal
  severity : PyVal
  status : PyVal
  product : PyVal
  last_modified : PyVal
deriving DecidableEq, Repr

/-- The `case_url` property: a deep link built from the case number. -/
def Case.case_url (c : Case) : PyStr :=
  "https://access.redhat.com/support/cases/#/case/".data ++ c.case_number.fmt

/-- One record of the response's `cases` list, as consumed by
`RedHatAPI.fetch_cases` (source lines 124-132).  Each field is `none` when the
key is absent and `some v` when present with value `v` (possibly JSON null). -/
structure CaseRecord where
  caseNumber : Option PyVal
  summary : Option PyVal
  severity : Option PyVal
  status : Option PyVal
  product : Option PyVal
  lastModifiedDate : Option PyVal
deriving DecidableEq, Repr

/-- The record-to-`Case` mapping inside the `fetch_cases` loop (source lines
125-132): every field defaults to `""` when absent, and the summary is sliced
with `[:100]`.  The slice raises (result `none`) when `summary` is present
with a null value. -/
def mapCase (r : CaseRecord) : Option Case :=
  match pySlice (pyGet r.summary (.str "".data)) 100 with
  | some s =>
      some { case_number := pyGet r.caseNumber (.str "".data)
             summary := .str s
             severity := pyGet r.severity (.str "".data)
             status := pyGet r.status (.str "".data)
             product := pyGet r.product (.str "".data)
             last_modified := pyGet r.lastModifiedDate (.str "".data) }
  | none => none

/-- The `for case_data in ...: cases.append(...)` loop of `fetch_cases`
(source lines 122-132): map the records in order; a raise on any record
aborts the whole call (the partial list is discarded with the exception). -/
def mapCases : List CaseRecord → Option (List Case)
  | [] => some []
  | r :: rest =>
    match mapCase r with
    | some c => (mapCases rest).map (fun cs => c :: cs)
    | none => none

/-- The success path of `fetch_cases` after the HTTP 200 check (source lines
121-134): iterate over `data.get("cases", [])` and map each record.
`casesField = none` models an absent `cases` key. -/
def fetchCasesOf (casesField : Option (List CaseRecord)) : Option (List Case) :=
  mapCases (casesField.getD [])

/-! ## Token manager (`RedHatAPI`, source lines 57-96) -/

/-- The token manager's session state (`RedHatAPI.__init__`, lines 64-67). -/
structure Session where
  offline_token : PyStr
  access_token : Option PyStr
  token_expiry : Option Nat
deriving DecidableEq, Repr

/-- The session state right after `RedHatAPI.__init__`. -/
def Session.init (tok : PyStr) : Session :=
  { offline_token := tok, access_token := none, token_expiry := none }

/-- The token-endpoint response as `get_access_token` consumes it:
HTTP status, the `access_token` JSON field (`none` = absent or null),
the `expires_in` field's effective value (`data.get("expires_in", 300)`),
and `response.text`. -/
structure TokenResponse where
  status : Nat
  body_access_token : Option PyStr
  expires_in : Nat
  text : PyStr
deriving DecidableEq, Repr

/-- Result of a `get_access_token` call: the returned token, or the message
of the raised exception. -/
inductive TokenResult where
  | ok (tok : PyStr)
  | authError (msg : PyStr)
deriving DecidableEq, Repr

/-- Python truthiness of `self.access_token` (an `Optional[str]`):
`None` and `""` are falsy. -/
def tokenTruthy : Option PyStr → Bool
  | none => false
  | some s => !s.isEmpty

/-- The cache-hit test of line 71:
`self.access_token and self.token_expiry and datetime.now() < self.token_expiry`
(`datetime` objects are always truthy). -/
def cacheValid (s : Session) (t1 : Nat) : Bool :=
  tokenTruthy s.access_token &&
    (match s.token_expiry with
     | some e => decide (t1 < e)
     | none => false)

/-- The method `RedHatAPI.get_access_token` (source lines 69-96).  `t1` is the
`datetime.now()` reading of the cache check, `t2` the one stored into
`token_expiry` on line 94, `resp` the token-endpoint response.  Returns the
result, the session state after the call, and whether a token exchange
(network call) was performed.  Note line 94 stores `datetime.now()` itself:
`expires_in` is read on line 93 but never applied. -/
def getAccessToken (s : Session) (t1 t2 : Nat) (resp : TokenResponse) :
    TokenResult × Session × Bool :=
  if cacheValid s t1 then
    (.ok (s.access_token.getD []), s, false)
  else if resp.status ≠ 200 then
    (.authError ("Failed to obtain access token: ".data ++ resp.text), s, true)
  else
    let s1 := { s with access_token := resp.body_access_token }
    if tokenTruthy s1.access_token then
      (.ok (resp.body_access_token.getD []),
       { s1 with token_expiry := some t2 }, true)
    else
      (.authError ("No access token in response".data), s1, true)

/-- Session states reachable from construction by any sequence of
`get_access_token` calls, with arbitrary clock readings and responses. -/
inductive Session.Reachable : Session → Prop
  | init (tok : PyStr) : Session.Reachable (Session.init tok)
  | step (s : Session) (t1 t2 : Nat) (resp : TokenResponse) :
      Session.Reachable s → Session.Reachable (getAccessToken s t1 t2 resp).2.1

/-! ## Application state and refresh pass (`CaseMonitorTUI`, lines 137-216) -/

/-- The `Account` dataclass (source lines 45-54).  `cases` is declared
`list[Case] | None`; `__post_init__` replaces `None` by `[]`, but the model
keeps the `Option` so that defensive `or []` coalescing in the renderer is
embedded faithfully. -/
structure Account where
  id : PyStr
  name : PyStr
  cases : Option (List Case)
deriving DecidableEq, Repr

instance : Inhabited Account := ⟨⟨[], [], none⟩⟩

/-- The `cases` sequence an account effectively carries (`acc.cases or []`). -/
def Account.caseList (a : Account) : List Case :=
  a.cases.getD []

/-- The slice of `CaseMonitorTUI` state that `fetch_all_cases` reads and
writes: the account list, `last_update` and `error_message`
(source lines 145-148). -/
structure AppState where
  accounts : List Account
  last_update : Option Nat
  error_message : Option PyStr
deriving DecidableEq, Repr

/-- The error message recorded on a per-account fetch failure (line 211):
`f"Error fetching cases for {account.name}: {str(e)}"`. -/
def errMsg (name : PyStr) (e : PyStr) : PyStr :=
  "Error fetching cases for ".data ++ name ++ ": ".data ++ e

/-- The sequential per-account loop of `fetch_all_cases` (source lines
207-212), threading the single error slot.  `fetchO` maps an account id to
that account's `fetch_cases` outcome in this pass.  On success the account's
case list is replaced wholesale; on failure the error slot is overwritten and
the case list set to `[]`; the loop never aborts. -/
def runPass (fetchO : PyStr → Except PyStr (List Case)) :
    List Account → Option PyStr → List Account × Option PyStr
  | [], err => ([], err)
  | a :: rest, err =>
    match fetchO a.id with
    | .ok cs =>
        let r := runPass fetchO rest err
        ({ a with cases := some cs } :: r.1, r.2)
    | .error e =>
        let r := runPass fetchO rest (some (errMsg a.name e))
        ({ a with cases := some [] } :: r.1, r.2)

/-- The method `CaseMonitorTUI.fetch_all_cases` (source lines 203-216): clear the error
slot, run the sequential per-account loop, stamp `last_update`.  (The outer
`try` of lines 206-216 is unreachable: the only raising call in its body,
`fetch_cases`, is guarded by the inner handler, so the model omits it.) -/
def fetchAllCases (st : AppState) (fetchO : PyStr → Except PyStr (List Case))
    (now : Nat) : AppState :=
  let p := runPass fetchO st.accounts none
  { accounts := p.1, error_message := p.2, last_update := some now }

/-- The message `fetch_all_cases` would record for account `a` if its fetch
fails in this pass, `none` if it succeeds. -/
def failMsg (fetchO : PyStr → Except PyStr (List Case)) (a : Account) :
    Option PyStr :=
  match fetchO a.id with
  | .ok _ => none
  | .error e => some (errMsg a.name e)

/-! ## Summary panel (`create_summary_panel`, source lines 288-297) -/

/-- The status test `c.status == "Waiting on Red Hat"` (a `None` status
compares unequal to any string). -/
def statusIsRH (v : PyVal) : Bool :=
  v = .str "Waiting on Red Hat".data

/-- Counter `total_cases` of the summary panel (line 291):
`sum(len(acc.cases or []) for acc in self.accounts)`, a Python `int`. -/
def total_cases (accs : List Account) : Int :=
  (accs.map (fun a => (a.caseList.length : Int))).sum

/-- Counter `waiting_on_rh` of the summary panel (lines 293-296). -/
def waiting_on_rh (accs : List Account) : Int :=
  (accs.map (fun a =>
    ((a.caseList.filter (fun c => statusIsRH c.status)).length : Int))).sum

/-- Counter `waiting_on_customer` of the summary panel (line 297):
`total_cases - waiting_on_rh`. -/
def waiting_on_customer (accs : List Account) : Int :=
  total_cases accs - waiting_on_rh accs

/-! ## Per-account table (`create_account_table`, source lines 235-286) -/

/-- The style chosen for a case's status cell (lines 263-267). -/
def statusStyle (c : Case) : PyStr :=
  if statusIsRH c.status then "bold red".data else "bold yellow".data

/-- The style chosen for a case's severity cell (lines 269-275): a dict
lookup with default `"white"`; a `None` severity is not a key. -/
def severityStyle (c : Case) : PyStr :=
  match c.severity with
  | .str s =>
      if s = "Urgent".data then "bold red".data
      else if s = "High".data then "red".data
      else if s = "Normal".data then "yellow".data
      else if s = "Low".data then "green".data
      else "white".data
  | .null => "white".data

/-- A rendered table row: the six cell strings passed to `table.add_row`. -/
abbrev Row := List PyStr

/-- The placeholder row added for an account with no cases (line 259). -/
def placeholderRow : Row :=
  [[], "[dim]No active cases[/dim]".data, [], [], [], []]

/-- The row added for one case (lines 277-284). -/
def caseRow (c : Case) : Row :=
  [ "[link=".data ++ c.case_url ++ "]".data ++ c.case_number.fmt ++
      "[/link]".data,
    c.summary.orEmpty,
    "[".data ++ severityStyle c ++ "]".data ++ c.severity.fmt ++
      "[/".data ++ severityStyle c ++ "]".data,
    "[".data ++ statusStyle c ++ "]".data ++ c.status.fmt ++
      "[/".data ++ statusStyle c ++ "]".data,
    c.product.orEmpty,
    c.last_modified.orEmpty ]

/-- The rows of the table `create_account_table` builds for one account
(source lines 257-284): one placeholder row when `account.cases` is `None` or
empty, otherwise one row per case in order. -/
def accountTableRows (a : Account) : List Row :=
  if a.caseList.isEmpty then [placeholderRow]
  else a.caseList.map caseRow

/-- The body of the layout (lines 342-350): one table per account, in order
(the interleaved blank spacers carry no rows and are not modelled). -/
def bodyTables (accs : List Account) : List (List Row) :=
  accs.map accountTableRows

instance : Inhabited Case :=
  ⟨⟨.null, .null, .null, .null, .null, .null⟩⟩

instance : Inhabited CaseRecord :=
  ⟨⟨none, none, none, none, none, none⟩⟩

/-! ## Helper lemmas -/

/-- Indexing with a default commutes with `map` below the length. -/
theorem getD_map_of_lt {α β : Type} (f : α → β) (da : α) (db : β) :
    ∀ (l : List α) (i : Nat), i < l.length → (l.map f).getD i db = f (l.getD i da)
  | a :: t, 0, _ => rfl
  | a :: t, i + 1, h => by
      simpa using getD_map_of_lt f da db t i (Nat.lt_of_succ_lt_succ h)

/-! ## Theorems -/

/-- C6: a record whose `summary` is present as a string maps to a `Case`
whose summary is the first 100 characters of the original; over 100
characters it has exactly 100, at 100 or fewer it is unchanged. -/
theorem c6_summary_truncated (r : CaseRecord) (s : PyStr)
    (h : r.summary = some (.str s)) :
    ∃ c, mapCase r = some c ∧ c.summary = .str (s.take 100) ∧
      (100 < s.length → (s.take 100).length = 100) ∧
      (s.length ≤ 100 → s.take 100 = s) := by
  have hm : mapCase r = some
      { case_number := pyGet r.caseNumber (.str "".data)
        summary := .str (s.take 100)
        severity := pyGet r.severity (.str "".data)
        status := pyGet r.status (.str "".data)
        product := pyGet r.product (.str "".data)
        last_modified := pyGet r.lastModifiedDate (.str "".data) } := by
    simp [mapCase, pyGet, pySlice, h]
  refine ⟨_, hm, rfl, ?_, ?_⟩
  · intro hlen
    rw [List.length_take]
    omega
  · intro hlen
    exact List.take_of_length_le hlen

/-- C6 witness: a concrete 101-character summary is truncated to 100. -/
theorem c6_summary_truncated_witness :
    ∃ c, mapCase ⟨none, some (.str (List.replicate 101 'a')), none, none,
        none, none⟩ = some c ∧
      c.summary = .str ((List.replicate 101 'a').take 100) ∧
      (100 < (List.replicate 101 'a').length →
        ((List.replicate 101 'a').take 100).length = 100) ∧
      ((List.replicate 101 'a').length ≤ 100 →
        (List.replicate 101 'a').take 100 = List.replicate 101 'a') :=
  c6_summary_truncated _ (List.replicate 101 'a') rfl

/-- C7: the mapping fails exactly when `summary` is present with a null
value; an absent `summary`, `product` or `lastModifiedDate` key yields the
empty string for that field (so an absent key never causes a failure). -/
theorem c7_absent_fields (r : CaseRecord) :
    (mapCase r = none ↔ r.summary = some PyVal.null) ∧
    (r.summary = none → ∀ c, mapCase r = some c → c.summary = .str []) ∧
    (r.product = none → ∀ c, mapCase r = some c → c.product = .str []) ∧
    (r.lastModifiedDate = none → ∀ c, mapCase r = some c →
      c.last_modified = .str []) := by
  obtain ⟨cn, sm, sv, st, pr, lm⟩ := r
  refine ⟨?_, ?_, ?_, ?_⟩
  · match sm with
    | none => simp [mapCase, pyGet, pySlice]
    | some .null => simp [mapCase, pyGet, pySlice]
    | some (.str s) => simp [mapCase, pyGet, pySlice]
  · rintro rfl c hc
    simp [mapCase, pyGet, pySlice] at hc
    simp [← hc]
  · rintro rfl c hc
    match sm with
    | none =>
        simp [mapCase, pyGet, pySlice] at hc
        simp [← hc, pyGet]
    | some .null => simp [mapCase, pyGet, pySlice] at hc
    | some (.str s) =>
        simp [mapCase, pyGet, pySlice] at hc
        simp [← hc, pyGet]
  · rintro rfl c hc
    match sm with
    | none =>
        simp [mapCase, pyGet, pySlice] at hc
        simp [← hc, pyGet]
    | some .null => simp [mapCase, pyGet, pySlice] at hc
    | some (.str s) =>
        simp [mapCase, pyGet, pySlice] at hc
        simp [← hc, pyGet]

/-- C7 witness: the all-keys-absent record maps to the all-empty `Case`. -/
theorem c7_absent_fields_witness :
    (Case.mk (.str []) (.str []) (.str []) (.str []) (.str [])
      (.str [])).summary = PyVal.str [] :=
  (c7_absent_fields ⟨none, none, none, none, none, none⟩).2.1 rfl _ rfl

/-- C8: an account whose effective case list is empty renders as exactly one
row, the placeholder row, whatever the other accounts hold. -/
theorem c8_empty_account_placeholder (accs : List Account) (i : Nat)
    (hi : i < accs.length) (he : (accs.getD i default).caseList = []) :
    (bodyTables accs).getD i [] = [placeholderRow] ∧
    ((bodyTables accs).getD i []).length = 1 := by
  have hmap : (bodyTables accs).getD i [] =
      accountTableRows (accs.getD i default) :=
    getD_map_of_lt accountTableRows default [] accs i hi
  rw [hmap, accountTableRows, he]
  simp

/-- C8 witness: with one populated and one empty account, the empty one
renders the single placeholder row. -/
theorem c8_empty_account_placeholder_witness :
    (bodyTables [⟨"111".data, "Acme".data, some [default]⟩,
        ⟨"222".data, "Globex".data, some []⟩]).getD 1 [] = [placeholderRow] ∧
    ((bodyTables [⟨"111".data, "Acme".data, some [default]⟩,
        ⟨"222".data, "Globex".data, some []⟩]).getD 1 []).length = 1 :=
  c8_empty_account_placeholder _ 1 (by decide) rfl

/-- C9: `fetch_cases` yields the empty sequence when the `cases` key is
absent or its list is empty, and on success exactly one `Case` per record,
in response order. -/
theorem c9_one_case_per_record :
    fetchCasesOf none = some [] ∧ fetchCasesOf (some []) = some [] ∧
    ∀ (recs : List CaseRecord) (cs : List Case),
      fetchCasesOf (some recs) = some cs →
      cs.length = recs.length ∧
      ∀ i, i < recs.length →
        mapCase (recs.getD i default) = some (cs.getD i default) := by
  refine ⟨rfl, rfl, ?_⟩
  have key : ∀ (recs : List CaseRecord) (cs : List Case),
      mapCases recs = some cs →
      cs.length = recs.length ∧
      ∀ i, i < recs.length →
        mapCase (recs.getD i default) = some (cs.getD i default) := by
    intro recs
    induction recs with
    | nil =>
        intro cs hcs
        simp [mapCases] at hcs
        subst hcs
        simp
    | cons r rest ih =>
        intro cs hcs
        rw [mapCases] at hcs
        cases hr : mapCase r with
        | none => rw [hr] at hcs; exact absurd hcs (by simp)
        | some c =>
            rw [hr] at hcs
            rcases Option.map_eq_some'.mp hcs with ⟨cs', hcs', rfl⟩
            obtain ⟨hlen, hidx⟩ := ih cs' hcs'
            refine ⟨by simpa using hlen, ?_⟩
            intro i hi
            match i with
            | 0 => simpa using hr
            | i + 1 => simpa using hidx i (Nat.lt_of_succ_lt_succ hi)
  exact fun recs cs h => key recs cs h

/-- C9 witness: a concrete two-record response maps to two cases in order. -/
theorem c9_one_case_per_record_witness :
    ([(Case.mk (.str ['7']) (.str []) (.str []) (.str []) (.str []) (.str [])),
      (Case.mk (.str ['8']) (.str []) (.str []) (.str []) (.str []) (.str []))]
        : List Case).length =
      ([⟨some (.str ['7']), none, none, none, none, none⟩,
        ⟨some (.str ['8']), none, none, none, none, none⟩]
          : List CaseRecord).length ∧
    ∀ i, i < ([⟨some (.str ['7']), none, none, none, none, none⟩,
        ⟨some (.str ['8']), none, none, none, none, none⟩]
          : List CaseRecord).length →
      mapCase (([⟨some (.str ['7']), none, none, none, none, none⟩,
          ⟨some (.str ['8']), none, none, none, none, none⟩]
            : List CaseRecord).getD i default) =
        some (([(Case.mk (.str ['7']) (.str []) (.str []) (.str []) (.str [])
            (.str [])),
          (Case.mk (.str ['8']) (.str []) (.str []) (.str []) (.str [])
            (.str []))] : List Case).getD i default) :=
  c9_one_case_per_record.2.2 _ _ rfl

/-- C10: the empty-string default applies only to absent keys: a record whose
`summary` key is present with a null value makes the mapping fail (the null
reaches the slice), while the same record with the key absent maps to an
empty-string summary. -/
theorem c10_null_summary_fails :
    mapCase ⟨some (.str ['1']), some PyVal.null, none, none, none, none⟩ =
      none ∧
    mapCase ⟨some (.str ['1']), none, none, none, none, none⟩ =
      some ⟨.str ['1'], .str [], .str [], .str [], .str [], .str []⟩ :=
  ⟨rfl, rfl⟩

/-- C5: the displayed total equals the sum of per-account case counts, the
two waiting counts partition it, and the customer count is exactly the count
of cases whose status is not "Waiting on Red Hat". -/
theorem c5_summary_counts (accs : List Account) :
    total_cases accs = (accs.map (fun a => (a.caseList.length : Int))).sum ∧
    waiting_on_rh accs + waiting_on_customer accs = total_cases accs ∧
    waiting_on_customer accs = (accs.map (fun a =>
      ((a.caseList.filter (fun c => !statusIsRH c.status)).length
        : Int))).sum := by
  have key : ∀ l : List Account,
      total_cases l = waiting_on_rh l + (l.map (fun a =>
        ((a.caseList.filter (fun c => !statusIsRH c.status)).length
          : Int))).sum := by
    intro l
    induction l with
    | nil => simp [total_cases, waiting_on_rh]
    | cons a t ih =>
        have hsplit : a.caseList.length =
            (a.caseList.filter (fun c => statusIsRH c.status)).length +
            (a.caseList.filter (fun c => !statusIsRH c.status)).length :=
          List.length_eq_length_filter_add _
        simp only [total_cases, waiting_on_rh, List.map_cons,
          List.sum_cons] at ih ⊢
        rw [hsplit]
        push_cast
        omega
  refine ⟨rfl, ?_, ?_⟩
  · rw [waiting_on_customer]
    ring
  · rw [waiting_on_customer]
    have := key accs
    omega

/-- A successful token-endpoint response carrying the token `"tok"`. -/
def tokResp200 : TokenResponse :=
  { status := 200, body_access_token := some "tok".data, expires_in := 300,
    text := [] }

/-- C1: evaluating `get_access_token` on a fresh session with a successful
response shows the bug: the first call exchanges and stores the current
instant itself as the expiry (zero margin, `expires_in` ignored), so the
immediate second call performs another exchange instead of returning the
cached token. -/
theorem c1_zero_margin_refetch :
    (getAccessToken (Session.init "offline".data) 0 0 tokResp200).1 =
      .ok "tok".data ∧
    (getAccessToken (Session.init "offline".data) 0 0 tokResp200).2.2 =
      true ∧
    ((getAccessToken (Session.init "offline".data) 0 0
      tokResp200).2.1).token_expiry = some 0 ∧
    (getAccessToken
      ((getAccessToken (Session.init "offline".data) 0 0 tokResp200).2.1)
      0 0 tokResp200).2.2 = true := by
  refine ⟨rfl, rfl, rfl, rfl⟩

/-- A 200 response whose `access_token` field is the empty string. -/
def emptyTokResp : TokenResponse :=
  { status := 200, body_access_token := some [], expires_in := 300,
    text := [] }

/-- C2 counterexample: one `get_access_token` call answered with
`access_token = ""` stores a non-null access token while leaving the expiry
null (line 87 assigns before the line 89 check raises), so the invariant as
stated fails on a reachable session. -/
theorem c2_invariant_counterexample :
    Session.Reachable
      (getAccessToken (Session.init "off".data) 0 0 emptyTokResp).2.1 ∧
    ((getAccessToken (Session.init "off".data) 0 0
      emptyTokResp).2.1).access_token ≠ none ∧
    ((getAccessToken (Session.init "off".data) 0 0
      emptyTokResp).2.1).token_expiry = none := by
  refine ⟨Session.Reachable.step _ 0 0 emptyTokResp
    (Session.Reachable.init _), by decide, rfl⟩

/-- C2 amended: on every reachable session a non-null *and non-empty* access
token comes with a non-null expiry, and every exchange that returns a token
stores as expiry exactly the clock reading taken when the token is installed
(hence no earlier than its issuance). -/
theorem c2_invariant_amended :
    (∀ s, Session.Reachable s → tokenTruthy s.access_token = true →
      s.token_expiry ≠ none) ∧
    (∀ (s : Session) (t1 t2 : Nat) (resp : TokenResponse),
      (getAccessToken s t1 t2 resp).2.2 = true →
      ∀ tk, (getAccessToken s t1 t2 resp).1 = .ok tk →
        (getAccessToken s t1 t2 resp).2.1.token_expiry = some t2) := by
  constructor
  · intro s hr
    induction hr with
    | init tok => intro h; simp [Session.init, tokenTruthy] at h
    | step s t1 t2 resp hr ih =>
        by_cases h1 : cacheValid s t1
        · simpa [getAccessToken, h1] using ih
        · by_cases h2 : resp.status = 200
          · by_cases h3 : tokenTruthy resp.body_access_token
            · intro _
              simp [getAccessToken, h1, h2, h3]
            · intro htr
              simp [getAccessToken, h1, h2, h3] at htr
          · simpa [getAccessToken, h1, h2] using ih
  · intro s t1 t2 resp hex tk hok
    by_cases h1 : cacheValid s t1
    · simp [getAccessToken, h1] at hex
    · by_cases h2 : resp.status = 200
      · by_cases h3 : tokenTruthy resp.body_access_token
        · simp [getAccessToken, h1, h2, h3]
        · simp [getAccessToken, h1, h2, h3] at hok
      · simp [getAccessToken, h1, h2] at hok

/-- C2 witness: after a successful exchange at clock reading 5 the amended
invariant yields a non-null expiry. -/
theorem c2_invariant_amended_witness :
    ((getAccessToken (Session.init "off".data) 0 5
      tokResp200).2.1).token_expiry ≠ none :=
  c2_invariant_amended.1 _
    (Session.Reachable.step _ 0 5 tokResp200 (Session.Reachable.init _))
    (by decide)

/-- What one account's entry becomes after its own fetch in a pass. -/
def passAccount (fetchO : PyStr → Except PyStr (List Case)) (a : Account) :
    Account :=
  match fetchO a.id with
  | .ok cs => { a with cases := some cs }
  | .error _ => { a with cases := some [] }

/-- The account list a pass produces is the per-account result of each
entry's own fetch, independent of the threaded error slot. -/
theorem runPass_accounts (fetchO : PyStr → Except PyStr (List Case))
    (l : List Account) :
    ∀ err, (runPass fetchO l err).1 = l.map (passAccount fetchO) := by
  induction l with
  | nil => intro err; rfl
  | cons a t ih =>
      intro err
      rw [runPass]
      cases h : fetchO a.id with
      | ok cs => simp [h, passAccount, ih]
      | error e => simp [h, passAccount, ih]

/-- Absorption: a fallback after an `Option.or` with a `some` is dead. -/
theorem or_some_or {α : Type} (o : Option α) (m : α) (y : Option α) :
    (o.or (some m)).or y = o.or (some m) := by
  cases o <;> rfl

/-- Unfolding `getLast?` one cons at a time, as an `Option.or`. -/
theorem getLast?_cons_or {α : Type} (x : α) (xs : List α) :
    (x :: xs).getLast? = xs.getLast?.or (some x) := by
  cases xs with
  | nil => rfl
  | cons y ys =>
      rw [List.getLast?_cons_cons]
      cases hg : (y :: ys).getLast? with
      | none =>
          have hs : (y :: ys).getLast?.isSome :=
            List.getLast?_isSome.mpr (by simp)
          rw [hg] at hs
          simp at hs
      | some z => rfl

/-- The error slot a pass leaves behind: the message of the last failure,
falling back to the incoming slot value when every fetch succeeds. -/
theorem runPass_error (fetchO : PyStr → Except PyStr (List Case))
    (l : List Account) :
    ∀ err, (runPass fetchO l err).2 =
      ((l.filterMap (failMsg fetchO)).getLast?).or err := by
  induction l with
  | nil => intro err; cases err <;> rfl
  | cons a t ih =>
      intro err
      rw [runPass]
      cases h : fetchO a.id with
      | ok cs => simp [h, failMsg, List.filterMap_cons, ih]
      | error e =>
          simp only [h, failMsg, List.filterMap_cons, ih,
            getLast?_cons_or, or_some_or]

/-- Indexing below the length lands on a list member. -/
theorem getD_mem_of_lt {α : Type} (d : α) :
    ∀ (l : List α) (i : Nat), i < l.length → l.getD i d ∈ l
  | a :: t, 0, _ => List.mem_cons_self a t
  | a :: t, i + 1, h =>
      List.mem_cons_of_mem a
        (getD_mem_of_lt d t i (Nat.lt_of_succ_lt_succ h))

/-- C3: in every refresh pass, each failing account ends with an empty case
list and leaves the global error non-null, each succeeding account ends with
exactly the list its fetch returned, and every account is processed (the
pass is not aborted). -/
theorem c3_failure_isolated (st : AppState)
    (fetchO : PyStr → Except PyStr (List Case)) (now : Nat) :
    (fetchAllCases st fetchO now).accounts.length = st.accounts.length ∧
    ∀ i, i < st.accounts.length →
      (∀ e, fetchO (st.accounts.getD i default).id = .error e →
        ((fetchAllCases st fetchO now).accounts.getD i default).cases =
          some [] ∧
        (fetchAllCases st fetchO now).error_message ≠ none) ∧
      (∀ cs, fetchO (st.accounts.getD i default).id = .ok cs →
        ((fetchAllCases st fetchO now).accounts.getD i default).cases =
          some cs) := by
  have haccs : (fetchAllCases st fetchO now).accounts =
      st.accounts.map (passAccount fetchO) := by
    simp [fetchAllCases, runPass_accounts]
  refine ⟨by rw [haccs]; exact List.length_map _ _, ?_⟩
  intro i hi
  have hidx : (fetchAllCases st fetchO now).accounts.getD i default =
      passAccount fetchO (st.accounts.getD i default) := by
    rw [haccs]
    exact getD_map_of_lt (passAccount fetchO) default default st.accounts i hi
  constructor
  · intro e he
    refine ⟨by rw [hidx]; unfold passAccount; rw [he], ?_⟩
    have hmem : errMsg (st.accounts.getD i default).name e ∈
        st.accounts.filterMap (failMsg fetchO) :=
      List.mem_filterMap.mpr
        ⟨st.accounts.getD i default, getD_mem_of_lt default st.accounts i hi,
          by unfold failMsg; rw [he]⟩
    have hne : st.accounts.filterMap (failMsg fetchO) ≠ [] :=
      List.ne_nil_of_mem hmem
    have hsome : (st.accounts.filterMap (failMsg fetchO)).getLast?.isSome :=
      List.getLast?_isSome.mpr hne
    have herr : (fetchAllCases st fetchO now).error_message =
        (st.accounts.filterMap (failMsg fetchO)).getLast? := by
      simp [fetchAllCases, runPass_error]
    rw [herr]
    exact Option.ne_none_iff_isSome.mpr hsome
  · intro cs hcs
    rw [hidx]
    unfold passAccount
    rw [hcs]

/-- The two-account state of the C3 witness scenario. -/
def c3State : AppState :=
  { accounts := [⟨"111".data, "Acme".data, some []⟩,
      ⟨"222".data, "Globex".data, some []⟩],
    last_update := none, error_message := none }

/-- The C3 witness pass: account `"111"` succeeds with one case, every other
account fails with message `"boom"`. -/
def c3Fetch : PyStr → Except PyStr (List Case) :=
  fun id => if id = "111".data then .ok [default] else .error "boom".data

/-- C3 witness: in the concrete pass the failing second account ends empty
with a non-null global error, and the first keeps its fetched case. -/
theorem c3_failure_isolated_witness :
    (((fetchAllCases c3State c3Fetch 0).accounts.getD 1 default).cases =
      some [] ∧
     (fetchAllCases c3State c3Fetch 0).error_message ≠ none) ∧
    ((fetchAllCases c3State c3Fetch 0).accounts.getD 0 default).cases =
      some [default] :=
  ⟨((c3_failure_isolated c3State c3Fetch 0).2 1 (by decide)).1
      "boom".data rfl,
   ((c3_failure_isolated c3State c3Fetch 0).2 0 (by decide)).2
      [default] rfl⟩

/-- C4: every refresh pass ignores the incoming error slot (it is cleared at
the start), retains exactly the last failure's message (none when every
fetch succeeds), and stamps the last-update time whether or not per-account
failures occurred. -/
theorem c4_error_slot (st : AppState)
    (fetchO : PyStr → Except PyStr (List Case)) (now : Nat) :
    (fetchAllCases st fetchO now).error_message =
      (st.accounts.filterMap (failMsg fetchO)).getLast? ∧
    (fetchAllCases st fetchO now).last_update = some now ∧
    ∀ e0, fetchAllCases { st with error_message := e0 } fetchO now =
      fetchAllCases st fetchO now := by
  refine ⟨?_, rfl, fun e0 => rfl⟩
  simp [fetchAllCases, runPass_error]
